import Mathlib

/-!
Shallow embedding of the phetch view/navigation engine (src/menu.rs, src/ui.rs),
for checking the natural-language specification against the code.

Strings are modelled as `List Char` (`Str`); Rust `usize` is modelled as `Nat`,
with truncated subtraction where the source subtracts (the one place where an
unguarded subtraction can actually underflow at runtime, `Menu::action_down`,
additionally gets a checked embedding `Menu.action_down_checked` that returns
`none` exactly where the Rust expression would overflow-panic).
-/

set_option autoImplicit false

namespace Phetch

abbrev Str := List Char

/-- Modelled from the spec: the gopher module (gopher.rs) is not under src/.
Spec §3: "Item type — enumeration over Gopher item-type codes: Text,
Menu(directory), Info, HTML, Error, Search, plus a catch-all download/binary
category". Unrecognized codes yield no type (`type_for_char` returns `none`). -/
inductive ItemType where
  | text
  | menu
  | info
  | html
  | error
  | search
  | download
  deriving DecidableEq, Repr, Inhabited

/-- Modelled from the spec: gopher.rs is not under src/. Spec §3: the item type
is "derived from the first character of a protocol line; unrecognized characters
yield no type and the line is dropped". The character table uses the canonical
Gopher codes for the spec's categories. -/
def type_for_char (c : Char) : Option ItemType :=
  if c = '0' then some ItemType.text
  else if c = '1' then some ItemType.menu
  else if c = '3' then some ItemType.error
  else if c = '7' then some ItemType.search
  else if c = 'h' then some ItemType.html
  else if c = 'i' then some ItemType.info
  else if c = '4' ∨ c = '5' ∨ c = '6' ∨ c = '9' ∨ c = 'g' ∨ c = 'I' ∨ c = 's' ∨ c = 'd'
  then some ItemType.download
  else none

/-- Direction of a given link relative to the visible screen (menu.rs `LinkDir`). -/
inductive LinkDir where
  | above
  | below
  | visible
  deriving DecidableEq, Repr

/-- Decoded key events (the termion `Key` variants the source matches on). -/
inductive Key where
  | char (c : Char)
  | ctrl (c : Char)
  | up
  | down
  | left
  | right
  | pageUp
  | pageDown
  | backspace
  | delete
  | esc
  deriving DecidableEq, Repr

/-- ui.rs `Action`; `openUrl` models `Action::Open(String)`, and `keypress`
models menu.rs's passthrough `Action::Keypress(key)`. -/
inductive Action where
  | none
  | back
  | forward
  | openUrl (url : Str)
  | redraw
  | quit
  | clipboard (s : Str)
  | unknown
  | keypress (k : Key)
  deriving DecidableEq, Repr

/-- menu.rs `Line`: one parsed entry of a menu response. -/
structure Line where
  name : Str
  url : Str
  typ : ItemType
  link : Nat
  deriving DecidableEq, Repr, Inhabited

/-- menu.rs `Menu`. `size` is `(cols, rows)`. -/
structure Menu where
  url : Str
  lines : List Line
  links : List Nat
  longest : Nat
  raw : Str
  input : Str
  link : Nat
  scroll : Nat
  size : Nat × Nat
  wide : Bool
  deriving DecidableEq, Repr

/-- `str::split(sep)` on a list of characters (always at least one piece). -/
def splitOnChar (sep : Char) : Str → List Str
  | [] => [[]]
  | c :: rest =>
    if c = sep then [] :: splitOnChar sep rest
    else
      match splitOnChar sep rest with
      | h :: t => (c :: h) :: t
      | [] => [[c]]

/-- Rust `str::split_terminator(sep)`: like split, but a trailing empty piece
(from a trailing separator, or from the empty string) is dropped. -/
def splitTerm (sep : Char) (s : Str) : List Str :=
  let parts := splitOnChar sep s
  match parts.getLast? with
  | some [] => parts.dropLast
  | _ => parts

/-- Rust `str::len()`: the UTF-8 byte length of the string. -/
def utf8Len (s : Str) : Nat :=
  s.foldl (fun n c => n + c.utf8Size) 0

/-- Rust `str::trim_end_matches('\r')`. -/
def trimEndCr (s : Str) : Str :=
  (s.reverse.dropWhile (fun c => c = '\r')).reverse

/-- Rust `str::parse::<usize>()`: an optional leading `+`, then one or more
decimal digits, rejecting values that do not fit in a `usize`. -/
def parseUsize (s : Str) : Option Nat :=
  let ds := match s with
    | c :: rest => if c = '+' then rest else c :: rest
    | [] => []
  if ds = [] then none
  else if ds.all Char.isDigit then
    let v := ds.foldl (fun a c => a * 10 + (c.toNat - 48)) 0
    if v < 2 ^ 64 then some v else none
  else none

/-- Rust `char::to_ascii_lowercase`. -/
def asciiLower (c : Char) : Char :=
  if 'A' ≤ c ∧ c ≤ 'Z' then Char.ofNat (c.toNat + 32) else c

/-- Rust `str::to_ascii_lowercase`. -/
def lowerStr (s : Str) : Str :=
  s.map asciiLower

/-- Rust `str::contains(pat)`: substring containment. -/
def containsSub : Str → Str → Bool
  | [], pat => pat.isEmpty
  | c :: t, pat => pat.isPrefixOf (c :: t) || containsSub t pat

/-- Modelled from the spec: gopher.rs's `parse_url` is not under src/. Spec §6
gives `parse_url(url) -> (ItemType, host, port, selector)`, and spec §4.1 says
constructed URLs have the shape scheme ++ host ++ [":" ++ port] ++ "/" ++
type-character ++ selector. This models the item-type component only: the first
character after the first "/" that follows the scheme-stripped authority,
defaulting to Menu (the directory type). -/
def parseUrlType (url : Str) : ItemType :=
  let rest := if "gopher://".toList.isPrefixOf url then url.drop 9 else url
  match (rest.dropWhile (fun c => c ≠ '/')).drop 1 with
  | c :: _ => (type_for_char c).getD ItemType.menu
  | [] => ItemType.menu

/-- URL construction for one menu line (menu.rs `Menu::parse`, the
"assemble regular, gopher-style URL" block), from the tab-separated parts. -/
def buildUrl (parts : List Str) : Str :=
  let url := "gopher://".toList
  let url := if 2 < parts.length then url ++ parts.getD 2 [] else url
  let url :=
    if 3 < parts.length then
      if trimEndCr (parts.getD 3 []) = "70".toList then url
      else url ++ [':'] ++ trimEndCr (parts.getD 3 [])
    else url
  let url :=
    match (parts.headD []).head? with
    | some fc =>
      let url := url ++ ['/', fc]
      if parts.length = 0 ∨ (1 < parts.length ∧ (parts.getD 1 []).length = 0) then
        url ++ ['/']
      else url
    | none => url
  if 1 < parts.length then url ++ parts.getD 1 [] else url

/-- The accumulator of `Menu::parse`'s loop: retained lines, link indices,
the running link counter, and the longest name seen. -/
structure ParseState where
  lines : List Line
  links : List Nat
  link : Nat
  longest : Nat
  deriving DecidableEq, Repr

/-- One iteration of `Menu::parse`'s loop over the response's lines: skip the
line when it is empty or its first character is not a recognized item-type
code; otherwise split on tabs, strip the type marker from the name, number
non-Info lines, and resolve the URL (`URL:` override or gopher-style). -/
def parseStep (st : ParseState) (line : Str) : ParseState :=
  match line.head? with
  | none => st
  | some c =>
    match type_for_char c with
    | none => st
    | some typ =>
      let parts := splitTerm '\t' line
      let p0 := parts.headD []
      let name : Str := if p0 = [] then [] else p0.drop 1
      let lk := if typ ≠ ItemType.info then st.link + 1 else st.link
      let longest := if st.longest < utf8Len name then utf8Len name else st.longest
      let lineLink := if typ = ItemType.info then 0 else lk
      let links := if 0 < lineLink then st.links ++ [st.lines.length] else st.links
      let p1 := parts.getD 1 []
      let url :=
        if 1 < parts.length ∧ "URL:".toList.isPrefixOf p1 then p1.drop 4
        else buildUrl parts
      { lines := st.lines ++ [{ name := name, url := url, typ := typ, link := lineLink }],
        links := links, link := lk, longest := longest }

/-- menu.rs `Menu::parse`: parse a gopher response into a Menu object. -/
def Menu.parse (url raw : Str) : Menu :=
  let st := (splitTerm '\n' raw).foldl parseStep
    { lines := [], links := [], link := 0, longest := 0 }
  { url := url, lines := st.lines, links := st.links, longest := st.longest,
    raw := raw, input := [], link := 0, scroll := 0, size := (0, 0), wide := false }

/-- Whether `Menu::parse` retains a response line: it must be non-empty and
its first character must be a recognized item-type code. -/
def keepLine (l : Str) : Bool :=
  match l.head? with
  | none => false
  | some c => (type_for_char c).isSome

/-- Whether a retained line is link-bearing (everything but Info lines). -/
def nonInfo (l : Line) : Bool :=
  decide (l.typ ≠ ItemType.info)

/-- The numbering invariant maintained by `Menu::parse`'s loop: the link
numbers of the non-Info lines so far are exactly `1, 2, …`; the running
counter equals the number of non-Info lines; `links` holds, in increasing
order, exactly the indices of the non-Info lines; Info lines carry link 0. -/
def PSInv (st : ParseState) : Prop :=
  ((st.lines.filter nonInfo).map Line.link
     = List.range' 1 (st.lines.filter nonInfo).length)
  ∧ st.link = (st.lines.filter nonInfo).length
  ∧ st.links = (List.range st.lines.length).filter
      (fun i => nonInfo (st.lines.getD i default))
  ∧ st.lines.all (fun l => decide (l.typ = ItemType.info → l.link = 0))

/-- menu.rs `Menu::link_visibility`: is the given link visible on the screen
right now? `none` when `i` is not an index into `links`. -/
def Menu.link_visibility (m : Menu) (i : Nat) : Option LinkDir :=
  match m.links.get? i with
  | some pos =>
    some
      (if pos < m.scroll then LinkDir.above
       else if m.scroll + m.size.2 - 1 ≤ pos then LinkDir.below
       else LinkDir.visible)
  | none => none

/-- menu.rs `Menu::link` (named `linkLine` here because `Menu.link` is the
selected-link field): the Line of the `i`-th link, when both lookups succeed. -/
def Menu.linkLine (m : Menu) (i : Nat) : Option Line :=
  match m.links.get? i with
  | some p => m.lines.get? p
  | none => none

/-- The centering indent of menu.rs `Menu::render_lines`: computed from the
longest display name (clamped to `MAX_COLS = 72`) and the terminal width. -/
def indentStr (m : Menu) : Str :=
  let longest := if 72 < m.longest then 72 else m.longest
  if m.size.1 < longest then []
  else
    let left := (m.size.1 - longest) / 2
    if 6 < left then List.replicate (left - 6) ' ' else []

/-- The name as displayed by `Menu::render_lines`: truncated (by character
count) with an ellipsis when its byte length exceeds `MAX_COLS = 72`. -/
def truncName (name : Str) : Str :=
  if 72 < utf8Len name then name.take 72 ++ "...".toList else name

/-- The `push!` macro of `Menu::render_lines` with the per-type color code. -/
def colorize (typ : ItemType) (name : Str) : Str :=
  let code :=
    match typ with
    | ItemType.text => "96"
    | ItemType.menu => "94"
    | ItemType.info => "93"
    | ItemType.html => "92"
    | ItemType.error => "91"
    | ItemType.download => "4;97"
    | ItemType.search => "0"
  "\x1b[".toList ++ code.toList ++ "m".toList ++ name ++ "\x1b[0m".toList

/-- One line of `Menu::render_lines` output: optional centering indent, the
2-column gutter (selection marker and right-justified link number, or 6 blanks
for Info lines), the colorized display name, and a newline. -/
def renderLine (m : Menu) (l : Line) : Str :=
  (if m.wide then [] else indentStr m)
  ++ (if l.typ = ItemType.info then "      ".toList
      else
        (if l.link - 1 = m.link then "\x1b[97;1m*\x1b[0m".toList else [' '])
        ++ [' '] ++ "\x1b[95m".toList
        ++ (if l.link < 10 then [' '] else [])
        ++ (Nat.repr l.link).toList ++ ".\x1b[0m ".toList)
  ++ colorize l.typ (truncName l.name)
  ++ ['\n']

/-- menu.rs `Menu::render_lines`: the visible window
`lines[scroll .. scroll + rows - 1]` rendered line by line, followed by the
status line (cursor to the final terminal row, clear it, print the input
buffer). `rows as u16` in the Goto escape is modelled as `rows % 65536`. -/
def Menu.render_lines (m : Menu) : Str :=
  let window := (m.lines.drop m.scroll).take (m.size.2 - 1)
  let out := window.foldl (fun acc l => acc ++ renderLine m l) []
  out ++ "\x1b[".toList ++ (Nat.repr (m.size.2 % 65536)).toList ++ ";1H".toList
      ++ "\x1b[2K".toList ++ m.input

/-- menu.rs `Menu::action_select_link`: recenter the scroll when the link is
not currently visible (its line minus `SCROLL_LINES = 15`, floored at 0), then
select it; out-of-range indices are a `None` no-op. -/
def Menu.action_select_link (m : Menu) (link : Nat) : Menu × Action :=
  if link < m.links.length then
    let m :=
      match m.links.get? link with
      | some line =>
        if m.link_visibility link ≠ some LinkDir.visible then
          if 15 < line then { m with scroll := line - 15 } else { m with scroll := 0 }
        else m
      | none => m
    ({ m with link := link }, Action.redraw)
  else (m, Action.none)

/-- menu.rs `Menu::action_open`. The source's `ui::prompt` collaborator (not
under src/) is modelled from the spec (§6: `prompt(message) -> Option<string>`)
by the explicit argument `pr`: the query string the user would type for a
Search-type link, `none` when the prompt is cancelled. -/
def Menu.action_open (m : Menu) (pr : Option Str) : Menu × Action :=
  let m := { m with input := [] }
  match m.linkLine m.link with
  | some line =>
    let url := line.url
    if parseUrlType url = ItemType.search then
      match pr with
      | some query => (m, Action.openUrl (url ++ ['?'] ++ query))
      | none => (m, Action.none)
    else (m, Action.openUrl url)
  | none => (m, Action.none)

/-- menu.rs `Menu::action_follow_link`: clear the input buffer, select the
link, then open it. -/
def Menu.action_follow_link (m : Menu) (pr : Option Str) (link : Nat) : Menu × Action :=
  let m := { m with input := [] }
  let m := (m.action_select_link link).1
  m.action_open pr

/-- menu.rs `Menu::action_up`. -/
def Menu.action_up (m : Menu) : Menu × Action :=
  if m.link = 0 then
    if 0 < m.scroll then ({ m with scroll := m.scroll - 1 }, Action.redraw)
    else (m, Action.none)
  else
    let new_link := m.link - 1
    match m.link_visibility new_link with
    | some LinkDir.above =>
      let m := if 0 < m.scroll then { m with scroll := m.scroll - 1 } else m
      let m :=
        match m.link_visibility new_link with
        | some LinkDir.visible => { m with link := new_link }
        | _ => m
      (m, Action.redraw)
    | some LinkDir.below =>
      let m :=
        match m.links.get? new_link with
        | some pos => { m with scroll := pos, link := new_link }
        | none => m
      (m, Action.redraw)
    | some LinkDir.visible => ({ m with link := new_link }, Action.redraw)
    | none => (m, Action.none)

/-- The remainder of menu.rs `Menu::action_down` after its first `if`: the
second scroll condition (all subtractions there are guarded by the preceding
conjuncts) and the main step-down navigation. -/
def Menu.action_down_rest (m : Menu) : Menu × Action :=
  let count := m.links.length
  if 0 < count ∧ m.link = count - 1 ∧ m.link < m.lines.length ∧ 15 < m.scroll
      ∧ m.scroll - 15 < count then
    ({ m with scroll := m.scroll + 1 }, Action.redraw)
  else
    let new_link := m.link + 1
    if 0 < count ∧ m.link < count - 1 then
      match m.link_visibility new_link with
      | some LinkDir.above =>
        let m :=
          match m.links.get? new_link with
          | some pos => { m with scroll := pos, link := new_link }
          | none => m
        (m, Action.redraw)
      | some LinkDir.below =>
        let m := { m with scroll := m.scroll + 1 }
        let m :=
          match m.link_visibility new_link with
          | some LinkDir.visible => { m with link := new_link }
          | _ => m
        (m, Action.redraw)
      | some LinkDir.visible => ({ m with link := new_link }, Action.redraw)
      | none => (m, Action.none)
    else (m, Action.none)

/-- menu.rs `Menu::action_down` with checked subtraction: `none` exactly where
the source's unguarded `usize` subtractions (`self.size.1 + self.scroll - 1`,
then — only when the first comparison succeeds — `count - 1`) would
overflow-panic. Evaluation order and short-circuiting follow the source. -/
def Menu.action_down_checked (m : Menu) : Option (Menu × Action) :=
  let count := m.links.length
  if m.size.2 + m.scroll = 0 then none
  else
    let w := m.size.2 + m.scroll - 1
    if w < m.lines.length then
      if count = 0 then none
      else if m.link = count - 1 then
        some ({ m with scroll := m.scroll + 1 }, Action.redraw)
      else some m.action_down_rest
    else some m.action_down_rest

/-- menu.rs `Menu::action_down`; the checked embedding's panic case is mapped
to a no-op so that `process_key` stays total. -/
def Menu.action_down (m : Menu) : Menu × Action :=
  (m.action_down_checked).getD (m, Action.none)

/-- menu.rs `Menu::action_page_down`: scroll down by `SCROLL_LINES = 15` when
possible; if the selected link then lies above the window, reselect the first
link at or below the new scroll position. -/
def Menu.action_page_down (m : Menu) : Menu × Action :=
  let lines := m.lines.length
  if 15 < lines ∧ m.scroll < lines - 15 then
    let m := { m with scroll := m.scroll + 15 }
    let m :=
      match m.link_visibility m.link with
      | some LinkDir.above =>
        match (m.links.drop m.link).find? (fun i => decide (m.scroll ≤ i)) with
        | some pos => { m with link := (m.lines.getD pos default).link - 1 }
        | none => m
      | _ => m
    (m, Action.redraw)
  else (m, Action.none)

/-- menu.rs `Menu::action_page_up`: scroll up by `SCROLL_LINES = 15` (floored
at 0); if the selected link then lies below the window, reselect using the
nearest preceding link above row `rows + scroll - 2` (note the source sets
`link` to that line's 1-based link number, not its 0-based index). -/
def Menu.action_page_up (m : Menu) : Menu × Action :=
  if 0 < m.scroll then
    let m := { m with scroll := if 15 < m.scroll then m.scroll - 15 else 0 }
    if m.link = 0 then (m, Action.redraw)
    else
      let m :=
        match m.link_visibility m.link with
        | some LinkDir.below =>
          match ((m.links.take m.link).reverse).find?
              (fun i => decide (i < m.size.2 + m.scroll - 2)) with
          | some pos => { m with link := (m.lines.getD pos default).link }
          | none => m
        | _ => m
      (m, Action.redraw)
  else if 0 < m.link then ({ m with link := 0 }, Action.redraw)
  else (m, Action.none)

/-- Wrapping `usize` decrement, as in the source's unguarded `i - 1` /
`num - 1` of the numeric-jump branches: for a digit buffer denoting 0 the Rust
subtraction overflows (a debug build panics; a release build wraps to
`usize::MAX`, on which `action_select_link` is a `None` no-op). Modelled with
the release (wrapping) semantics. -/
def usizeSub1 (i : Nat) : Nat :=
  (i + 2 ^ 64 - 1) % 2 ^ 64

/-- The `Key::Char(c)` arm of menu.rs `Menu::process_key` (general characters):
push the character, try the progressive numeric jump on buffers of length 1, 2
or 3 (follow when `count < n * 10`, else only select), then fall back to the
case-insensitive substring search over link names, else just redraw the input
line. -/
def Menu.charKey (m : Menu) (pr : Option Str) (c : Char) : Menu × Action :=
  let m := { m with input := m.input ++ [c] }
  let count := m.links.length
  let jump : Option (Menu × Action) :=
    if m.input.length = 1 then
      match m.input.head? with
      | some c0 =>
        if c0.isDigit then
          let i := c0.toNat - '0'.toNat
          if i ≤ count then
            some
              (if count < i * 10 then m.action_follow_link pr (usizeSub1 i)
               else m.action_select_link (usizeSub1 i))
          else none
        else none
      | none => none
    else if m.input.length = 2 then
      match parseUsize (m.input.take 2) with
      | some num =>
        if num ≤ count then
          some
            (if count < num * 10 then m.action_follow_link pr (usizeSub1 num)
             else m.action_select_link (usizeSub1 num))
        else none
      | none => none
    else if m.input.length = 3 then
      match parseUsize (m.input.take 3) with
      | some num =>
        if num ≤ count then
          some
            (if count < num * 10 then m.action_follow_link pr (usizeSub1 num)
             else m.action_select_link (usizeSub1 num))
        else none
      | none => none
    else none
  match jump with
  | some r => r
  | none =>
    let nameAt : Nat → Str := fun i =>
      match m.linkLine i with
      | some l => lowerStr l.name
      | none => []
    match (List.range count).find? (fun i => containsSub (nameAt i) (lowerStr m.input)) with
    | some i => m.action_select_link i
    | none => (m, Action.none)

/-- menu.rs `Menu::process_key`. The source's `redraw_input` prints the status
line as a side effect and returns `Action::None`; only its returned action is
modelled. `pr` is the spec-modelled prompt collaborator passed through to
`action_open` (see `Menu.action_open`). -/
def Menu.process_key (m : Menu) (pr : Option Str) (k : Key) : Menu × Action :=
  match k with
  | Key.char c =>
    if c = '\n' then m.action_open pr
    else if c = '-' then
      if m.input = [] then m.action_page_up
      else ({ m with input := m.input ++ ['-'] }, Action.none)
    else if c = ' ' then
      if m.input = [] then m.action_page_down
      else ({ m with input := m.input ++ [' '] }, Action.none)
    else m.charKey pr c
  | Key.up => m.action_up
  | Key.down => m.action_down
  | Key.ctrl c =>
    if c = 'p' then m.action_up
    else if c = 'n' then m.action_down
    else if c = 'w' then ({ m with wide := !m.wide }, Action.redraw)
    else if c = 'c' then
      if m.input ≠ [] then ({ m with input := [] }, Action.none)
      else (m, Action.quit)
    else (m, Action.keypress k)
  | Key.backspace =>
    if m.input = [] then (m, Action.back)
    else ({ m with input := m.input.dropLast }, Action.none)
  | Key.delete =>
    if m.input = [] then (m, Action.back)
    else ({ m with input := m.input.dropLast }, Action.none)
  | Key.esc =>
    if m.input ≠ [] then ({ m with input := [] }, Action.none)
    else (m, Action.none)
  | Key.pageUp => m.action_page_up
  | Key.pageDown => m.action_page_down
  | k => (m, Action.keypress k)

/-- ui.rs `UI`: the session/history stack, polymorphic over the page (view)
type as the source is over `Box<dyn View>`. -/
structure UIState (V : Type) where
  pages : List V
  page : Nat
  dirty : Bool
  running : Bool

/-- ui.rs `UI::add_page`: truncate forward history when not at the end, append
the new page, and advance the cursor unless this is the very first page. -/
def UIState.add_page {V : Type} (s : UIState V) (v : V) : UIState V :=
  let pages :=
    if 0 < s.pages.length ∧ s.page < s.pages.length - 1 then s.pages.take (s.page + 1)
    else s.pages
  let pages := pages ++ [v]
  let page := if 1 < pages.length then s.page + 1 else s.page
  { s with pages := pages, page := page }

/-- The `Action::Back` arm of ui.rs `UI::process_input`: move the cursor back
by one when possible, marking the display dirty. -/
def UIState.goBack {V : Type} (s : UIState V) : UIState V :=
  if 0 < s.page then { s with dirty := true, page := s.page - 1 } else s

/-- The `Action::Forward` arm of ui.rs `UI::process_input`: move the cursor
forward by one when not at the last page, marking the display dirty. -/
def UIState.goForward {V : Type} (s : UIState V) : UIState V :=
  if s.page < s.pages.length - 1 then { s with dirty := true, page := s.page + 1 } else s

/-! ### Concrete instances used by witnesses and counterexamples -/

/-- An Info line with no name. -/
def infoLine : Line :=
  { name := [], url := [], typ := ItemType.info, link := 0 }

/-- `n` copies of `infoLine`. -/
def infoLines (n : Nat) : List Line :=
  (List.range n).map (fun _ => infoLine)

/-- A text line carrying link number `i + 1`. -/
def textLink (i : Nat) : Line :=
  { name := ['a'], url := "gopher://h/0/x".toList, typ := ItemType.text, link := i + 1 }

/-- A menu with exactly 9 links (every line a link), as in the spec's
9-link instant-jump scenario. -/
def menu9 : Menu :=
  { url := [], lines := (List.range 9).map textLink, links := List.range 9,
    longest := 1, raw := [], input := [], link := 0, scroll := 0,
    size := (80, 24), wide := false }

/-- A menu with 15 links, as in the spec's two-digit scenario. -/
def menu15 : Menu :=
  { url := [], lines := (List.range 15).map textLink, links := List.range 15,
    longest := 1, raw := [], input := [], link := 0, scroll := 0,
    size := (80, 24), wide := false }

/-- `menu9` with a non-empty input buffer. -/
def menuInputAB : Menu :=
  { menu9 with input := ['a', 'b'] }

/-- 20 Info lines, scroll 4, 10 rows: one Page Down jumps to scroll 19. -/
def menu20 : Menu :=
  { url := [], lines := infoLines 20, links := [], longest := 0, raw := [],
    input := [], link := 0, scroll := 4, size := (80, 10), wide := false }

/-- 41 lines with links only at lines 7 and 40 (sparse), 10 rows, scrolled to
15 with link 1 (line 40) selected: Page Up's reselection keeps link 1 selected
even though its line stays below the window. -/
def menuPU : Menu :=
  { url := [],
    lines := (List.range 41).map (fun i =>
      if i = 7 then { name := ['a'], url := [], typ := ItemType.menu, link := 1 }
      else if i = 40 then { name := ['b'], url := [], typ := ItemType.menu, link := 2 }
      else infoLine),
    links := [7, 40], longest := 1, raw := [], input := [], link := 1,
    scroll := 15, size := (80, 10), wide := false }

/-- 40 lines, every line a link, 10 rows: Page Down from the top lands on
scroll 15 and reselects the first link at or below it. -/
def menuPD : Menu :=
  { url := [], lines := (List.range 40).map textLink, links := List.range 40,
    longest := 1, raw := [], input := [], link := 0, scroll := 0,
    size := (80, 10), wide := false }

/-- 15 link lines then 25 Info lines, scrolled to 30 with 10 rows: link 1 is
far above the window. -/
def menuSel : Menu :=
  { url := [], lines := (List.range 15).map textLink ++ infoLines 25,
    links := List.range 15, longest := 1, raw := [], input := [], link := 0,
    scroll := 30, size := (80, 10), wide := false }

/-- Three named Info lines on a 3-row terminal with a non-empty input buffer. -/
def menuC6 : Menu :=
  { url := [],
    lines :=
      [{ name := "LINEA".toList, url := [], typ := ItemType.info, link := 0 },
       { name := "LINEB".toList, url := [], typ := ItemType.info, link := 0 },
       { name := "LINEC".toList, url := [], typ := ItemType.info, link := 0 }],
    links := [], longest := 5, raw := [], input := "xy".toList, link := 0,
    scroll := 0, size := (80, 3), wide := true }

/-- A link-free menu whose content overflows a 1-row terminal: pressing Down
reaches the unguarded `count - 1` with `count = 0`. -/
def menuNoLinks : Menu :=
  { url := [], lines := infoLines 2, links := [], longest := 0, raw := [],
    input := [], link := 0, scroll := 0, size := (80, 1), wide := false }

/-- A menu on a 0-row terminal with scroll 0: pressing Down evaluates
`size.1 + scroll - 1` as `0 - 1`. -/
def menuZeroRows : Menu :=
  { url := [], lines := infoLines 2, links := [], longest := 0, raw := [],
    input := [], link := 0, scroll := 0, size := (80, 0), wide := false }

/-- A link-free menu on a normal terminal: pressing Down short-circuits before
either unguarded subtraction and is a no-op. -/
def menuOkDown : Menu :=
  { url := [], lines := infoLines 2, links := [], longest := 0, raw := [],
    input := [], link := 0, scroll := 0, size := (80, 24), wide := false }

/-- A Search-typed link line (item type `7`). -/
def searchLine : Line :=
  { name := ['q'], url := "gopher://h/7/q".toList, typ := ItemType.search, link := 1 }

/-- A single-link menu whose only link is Search-typed: typing '1' follows it
(1 < 10), which prompts for a query instead of opening the URL directly. -/
def menuSearch : Menu :=
  { url := [], lines := [searchLine], links := [0], longest := 1, raw := [],
    input := [], link := 0, scroll := 0, size := (80, 24), wide := false }

/-- The menu body of the spec's parsing example (claim C7). -/
def raw7 : Str :=
  "i-----\n1Name\t/sel/\thost\t70\n1Name2\t/sel2/\thost2\t70\ni-----".toList

/-- A menu line with a non-default port. -/
def rawPort : Str :=
  "1N\t/s\thost\t7070".toList

/-- A three-page history with the cursor on the first page. -/
def uiW : UIState Nat :=
  { pages := [10, 20, 30], page := 0, dirty := false, running := true }

/-! ### Helper lemmas -/

/-- `get?` of an in-bounds index yields the `getD` value. -/
theorem get?_eq_some_getD (l : List Nat) {i : Nat} (h : i < l.length) :
    l.get? i = some (l.getD i 0) := by
  rw [List.getD_eq_getD_get?, List.get?_eq_get h]
  rfl

/-- Closed form of `Menu.action_select_link`. -/
theorem action_select_link_eq (m : Menu) (i : Nat) :
    m.action_select_link i =
      if i < m.links.length then
        ({ m with
            link := i
            scroll :=
              if m.link_visibility i = some LinkDir.visible then m.scroll
              else m.links.getD i 0 - 15 },
         Action.redraw)
      else (m, Action.none) := by
  by_cases h : i < m.links.length
  · simp only [Menu.action_select_link, if_pos h, get?_eq_some_getD m.links h]
    by_cases hv : m.link_visibility i = some LinkDir.visible
    · rw [if_neg (not_not_intro hv), if_pos hv]
    · rw [if_pos hv, if_neg hv]
      by_cases h15 : 15 < m.links.getD i 0
      · rw [if_pos h15]
      · rw [if_neg h15]
        have h0 : m.links.getD i 0 - 15 = 0 := by omega
        rw [h0]
  · simp only [Menu.action_select_link, if_neg h]

/-- A left fold that appends `f x` for each element is the flattened map. -/
theorem foldl_append_flatten {α : Type} (f : α → Str) (init : Str) (ls : List α) :
    ls.foldl (fun acc x => acc ++ f x) init = init ++ (ls.map f).flatten := by
  induction ls generalizing init with
  | nil => simp
  | cons h t ih => simp [ih, List.append_assoc]

/-! ### Claim theorems -/

/-- Claim C3: pressing Backspace (or Delete) on an empty input buffer returns
`Action::Back`; on a non-empty buffer it removes exactly the last character of
the buffer, leaves every other field of the menu (in particular `link` and
`scroll`) unchanged, and never returns Back. -/
theorem c3_backspace_dual_role (m : Menu) (pr : Option Str) (k : Key)
    (hk : k = Key.backspace ∨ k = Key.delete) :
    (m.input = [] → m.process_key pr k = (m, Action.back))
    ∧ (m.input ≠ [] →
        (m.process_key pr k).1 = { m with input := m.input.dropLast }
        ∧ (m.process_key pr k).2 = Action.none
        ∧ (m.process_key pr k).2 ≠ Action.back) := by
  rcases hk with rfl | rfl <;>
    exact ⟨fun h => by simp [Menu.process_key, h],
           fun h => by simp [Menu.process_key, h]⟩

/-- Witness for C3 at concrete menus: empty buffer yields Back, the buffer
`"ab"` is shortened to `"a"` with everything else untouched. -/
theorem c3_backspace_dual_role_witness :
    menu9.process_key none Key.backspace = (menu9, Action.back)
    ∧ ((menuInputAB.process_key none Key.delete).1
         = { menuInputAB with input := menuInputAB.input.dropLast }
       ∧ (menuInputAB.process_key none Key.delete).2 = Action.none
       ∧ (menuInputAB.process_key none Key.delete).2 ≠ Action.back) :=
  ⟨(c3_backspace_dual_role menu9 none Key.backspace (Or.inl rfl)).1 rfl,
   (c3_backspace_dual_role menuInputAB none Key.delete (Or.inr rfl)).2 (by decide)⟩

/-- Claim C7: parsing the four-line body `i-----` / `1Name⇥/sel/⇥host⇥70` /
`1Name2⇥/sel2/⇥host2⇥70` / `i-----` yields 4 lines and 2 links with URLs
`gopher://host/1/sel/` and `gopher://host2/1/sel2/` (default port 70 omitted);
a non-default port appears as a `:port` suffix. -/
theorem c7_parse_example :
    (Menu.parse "test".toList raw7).lines.length = 4
    ∧ (Menu.parse "test".toList raw7).links.length = 2
    ∧ ((Menu.parse "test".toList raw7).lines.getD 1 default).url
        = "gopher://host/1/sel/".toList
    ∧ ((Menu.parse "test".toList raw7).lines.getD 2 default).url
        = "gopher://host2/1/sel2/".toList
    ∧ ((Menu.parse "t".toList rawPort).lines.getD 0 default).url
        = "gopher://host:7070/1/s".toList := by
  decide

/-- Claim C9: for an in-range link index, `action_select_link` always selects
it and returns Redraw; when its line was not visible beforehand the scroll
becomes the line's position minus the 15-line page size (floored at 0, which
is what `- 15` denotes on `Nat`); out-of-range indices return None and change
nothing. -/
theorem c9_select_link (m : Menu) (i : Nat) :
    (i < m.links.length →
      (m.action_select_link i).1.link = i
      ∧ (m.action_select_link i).2 = Action.redraw
      ∧ (m.link_visibility i ≠ some LinkDir.visible →
          (m.action_select_link i).1.scroll = m.links.getD i 0 - 15)
      ∧ (m.link_visibility i = some LinkDir.visible →
          (m.action_select_link i).1.scroll = m.scroll))
    ∧ (¬ i < m.links.length → m.action_select_link i = (m, Action.none)) := by
  constructor
  · intro h
    rw [action_select_link_eq]
    refine ⟨by simp [h], by simp [h], fun hv => ?_, fun hv => ?_⟩
    · simp [h, hv]
    · simp [h, hv]
  · intro h
    rw [action_select_link_eq, if_neg h]

/-- Witness for C9: on `menuSel`, link 1 (line 1, far above the window at
scroll 30) is selected with the scroll recentred to `1 - 15 = 0`; index 20 is
out of range and a no-op. -/
theorem c9_select_link_witness :
    ((menuSel.action_select_link 1).1.link = 1
     ∧ (menuSel.action_select_link 1).2 = Action.redraw
     ∧ (menuSel.action_select_link 1).1.scroll = menuSel.links.getD 1 0 - 15)
    ∧ menuSel.action_select_link 20 = (menuSel, Action.none) := by
  have h := c9_select_link menuSel 1
  have h20 := c9_select_link menuSel 20
  exact ⟨⟨(h.1 (by decide)).1, (h.1 (by decide)).2.1,
          (h.1 (by decide)).2.2.1 (by decide)⟩, h20.2 (by decide)⟩

/-- Claim C10: `Menu::action_down` evaluates the unguarded `usize`
subtractions `size.1 + scroll - 1` and (when the first comparison succeeds)
`count - 1` before any emptiness check; both underflows are reachable — on a
link-free menu whose content overflows the window, and on a 0-row terminal —
while a link-free menu on a normal terminal short-circuits to a no-op. -/
theorem c10_down_underflow_reachable :
    menuNoLinks.links.length = 0
    ∧ Menu.action_down_checked menuNoLinks = none
    ∧ menuZeroRows.size.2 = 0
    ∧ Menu.action_down_checked menuZeroRows = none
    ∧ menuOkDown.links.length = 0
    ∧ Menu.action_down_checked menuOkDown = some (menuOkDown, Action.none) := by
  decide

/-- Claim C2: with at least one page and the cursor strictly before the last
index, `add_page` truncates the page list to end at the current index, appends
the new page, and leaves the cursor on the freshly appended page (the last
index); `Back` then `Forward` afterwards returns to the new page. -/
theorem c2_add_page_truncates {V : Type} (s : UIState V) (v : V)
    (h1 : 0 < s.pages.length) (h2 : s.page < s.pages.length - 1) :
    (s.add_page v).pages = s.pages.take (s.page + 1) ++ [v]
    ∧ (s.add_page v).page = s.page + 1
    ∧ (s.add_page v).page = (s.add_page v).pages.length - 1
    ∧ (s.add_page v).pages.get? (s.add_page v).page = some v
    ∧ ((s.add_page v).goBack.goForward).page = (s.add_page v).page
    ∧ ((s.add_page v).goBack.goForward).pages.get?
        ((s.add_page v).goBack.goForward).page = some v := by
  have htake : (s.pages.take (s.page + 1)).length = s.page + 1 := by
    rw [List.length_take]; omega
  have hget : (s.pages.take (s.page + 1) ++ [v]).get? (s.page + 1) = some v := by
    have := List.get?_concat_length (s.pages.take (s.page + 1)) v
    rwa [htake] at this
  have hpages : (s.add_page v).pages = s.pages.take (s.page + 1) ++ [v] := by
    simp only [UIState.add_page, if_pos (And.intro h1 h2)]
  have hlen : (s.add_page v).pages.length = s.page + 2 := by
    rw [hpages]; simp [htake]
  have hpage : (s.add_page v).page = s.page + 1 := by
    simp only [UIState.add_page, if_pos (And.intro h1 h2)]
    rw [if_pos]
    simp [htake]
  have hback : (s.add_page v).goBack.page = s.page := by
    simp only [UIState.goBack, hpage, if_pos (Nat.succ_pos s.page)]
    omega
  have hbackpages : (s.add_page v).goBack.pages = (s.add_page v).pages := by
    unfold UIState.goBack
    split <;> rfl
  have hfwd : (s.add_page v).goBack.goForward.page = s.page + 1 := by
    unfold UIState.goForward
    split
    · simp [hback]
    · rename_i hc
      rw [hbackpages, hback, hlen] at hc
      omega
  have hfwdpages : (s.add_page v).goBack.goForward.pages = (s.add_page v).pages := by
    unfold UIState.goForward
    split
    · simp [hbackpages]
    · exact hbackpages
  refine ⟨hpages, hpage, ?_, ?_, ?_, ?_⟩
  · rw [hpage, hlen]
    omega
  · rw [hpages, hpage, hget]
  · rw [hfwd, hpage]
  · rw [hfwdpages, hfwd, hpages, hget]

/-- Witness for C2: a three-page history `[10, 20, 30]` with the cursor at 0;
adding page 99 yields `[10, 99]` with the cursor on 99, and Back-then-Forward
returns to 99. -/
theorem c2_add_page_truncates_witness :
    0 < uiW.pages.length ∧ uiW.page < uiW.pages.length - 1
    ∧ ((uiW.add_page 99).pages = uiW.pages.take (uiW.page + 1) ++ [99]
       ∧ (uiW.add_page 99).page = uiW.page + 1
       ∧ (uiW.add_page 99).page = (uiW.add_page 99).pages.length - 1
       ∧ (uiW.add_page 99).pages.get? (uiW.add_page 99).page = some 99
       ∧ ((uiW.add_page 99).goBack.goForward).page = (uiW.add_page 99).page
       ∧ ((uiW.add_page 99).goBack.goForward).pages.get?
           ((uiW.add_page 99).goBack.goForward).page = some 99) :=
  ⟨by decide, by decide, c2_add_page_truncates uiW 99 (by decide) (by decide)⟩

/-- Counterexample to claim C6 as stated: the claim's visible window
`[scroll, scroll + rows - 2)` excludes line index 1 on `menuC6`
(`scroll = 0`, `rows = 3`), yet the render output contains that line's name
`LINEB`; the window the code renders is `[scroll, scroll + rows - 1)`. -/
theorem c6_render_window_counterexample :
    containsSub menuC6.render_lines "LINEB".toList = true
    ∧ menuC6.scroll + menuC6.size.2 - 2 ≤ 1 := by
  decide

/-- Claim C6 (amended): render produces exactly the lines whose indices lie in
the half-open window `[scroll, scroll + rows - 1)` — only the last terminal
row is reserved for the status/input line — each rendered by `renderLine`, and
the output always ends with the status line at the final terminal row (cursor
escape to row `rows`, clear-line, then the current input buffer). -/
theorem c6_render_window_amended (m : Menu) :
    m.render_lines =
      (((m.lines.drop m.scroll).take (m.size.2 - 1)).map (renderLine m)).flatten
      ++ "\x1b[".toList ++ (Nat.repr (m.size.2 % 65536)).toList ++ ";1H".toList
      ++ "\x1b[2K".toList ++ m.input := by
  simp only [Menu.render_lines, foldl_append_flatten, List.nil_append,
    List.append_assoc]

/-- Closed form of `Menu.action_page_down` when the scroll condition holds. -/
theorem action_page_down_pos (m : Menu)
    (h : 15 < m.lines.length ∧ m.scroll < m.lines.length - 15) :
    m.action_page_down =
      (match ({ m with scroll := m.scroll + 15 } : Menu).link_visibility m.link with
       | some LinkDir.above =>
         match (m.links.drop m.link).find? (fun i => decide (m.scroll + 15 ≤ i)) with
         | some pos =>
           { m with scroll := m.scroll + 15,
                    link := (m.lines.getD pos default).link - 1 }
         | none => { m with scroll := m.scroll + 15 }
       | _ => { m with scroll := m.scroll + 15 },
       Action.redraw) := by
  unfold Menu.action_page_down
  dsimp only
  rw [if_pos h]

/-- `Menu.action_page_down` is a `None` no-op when the scroll condition fails. -/
theorem action_page_down_neg (m : Menu)
    (h : ¬ (15 < m.lines.length ∧ m.scroll < m.lines.length - 15)) :
    m.action_page_down = (m, Action.none) := by
  unfold Menu.action_page_down
  dsimp only
  rw [if_neg h]

/-- Closed form of `Menu.action_page_up` when scrolled down (the source's
`if scroll > 15 { scroll - 15 } else { 0 }` collapses to truncated `- 15`). -/
theorem action_page_up_pos (m : Menu) (h : 0 < m.scroll) :
    m.action_page_up =
      (if m.link = 0 then ({ m with scroll := m.scroll - 15 }, Action.redraw)
       else
        (match ({ m with scroll := m.scroll - 15 } : Menu).link_visibility m.link with
         | some LinkDir.below =>
           match ((m.links.take m.link).reverse).find?
               (fun i => decide (i < m.size.2 + (m.scroll - 15) - 2)) with
           | some pos =>
             { m with scroll := m.scroll - 15,
                      link := (m.lines.getD pos default).link }
           | none => { m with scroll := m.scroll - 15 }
         | _ => { m with scroll := m.scroll - 15 },
         Action.redraw)) := by
  have he : (if 15 < m.scroll then m.scroll - 15 else 0) = m.scroll - 15 := by
    split <;> omega
  unfold Menu.action_page_up
  rw [if_pos h, he]

/-- Closed form of `Menu.action_page_up` at the top of the document. -/
theorem action_page_up_zero (m : Menu) (h : ¬ 0 < m.scroll) :
    m.action_page_up =
      if 0 < m.link then ({ m with link := 0 }, Action.redraw)
      else (m, Action.none) := by
  unfold Menu.action_page_up
  rw [if_neg h]

/-- Claim C5 (amended): Page Down adds exactly 15 to `scroll` when the menu
has more than 15 lines and `scroll < len(lines) - 15`, and otherwise leaves it
unchanged — the result is not clamped to `len(lines) - 15` and may exceed it;
Page Up subtracts exactly 15, clamped at 0. After Page Down, if the previously
selected link lies above the new window, the selection moves forward to the
first link (at or after the current one) whose line is at or below the new
scroll; after Page Up at scroll 0 the first link is selected, and otherwise,
if the selected link lies below the window, the selection is set to the
1-based link *number* of the nearest preceding link above row
`rows + scroll - 2` — i.e. one past that link's index, which may itself lie
outside the window. -/
theorem c5_paging_amended (m : Menu) :
    ((m.action_page_down).1.scroll =
       if 15 < m.lines.length ∧ m.scroll < m.lines.length - 15 then m.scroll + 15
       else m.scroll)
    ∧ ((m.action_page_down).2 =
       if 15 < m.lines.length ∧ m.scroll < m.lines.length - 15 then Action.redraw
       else Action.none)
    ∧ ((m.action_page_up).1.scroll = m.scroll - 15)
    ∧ ((m.action_page_up).2 =
       if 0 < m.scroll ∨ 0 < m.link then Action.redraw else Action.none)
    ∧ (¬ (15 < m.lines.length ∧ m.scroll < m.lines.length - 15) →
        (m.action_page_down).1.link = m.link)
    ∧ (15 < m.lines.length ∧ m.scroll < m.lines.length - 15 →
        (Menu.link_visibility { m with scroll := m.scroll + 15 } m.link
            ≠ some LinkDir.above →
          (m.action_page_down).1.link = m.link)
        ∧ ∀ pos,
            Menu.link_visibility { m with scroll := m.scroll + 15 } m.link
              = some LinkDir.above →
            (m.links.drop m.link).find? (fun i => decide (m.scroll + 15 ≤ i))
              = some pos →
            (m.action_page_down).1.link = (m.lines.getD pos default).link - 1)
    ∧ (m.scroll = 0 → (m.action_page_up).1.link = 0)
    ∧ (0 < m.scroll →
        (m.link = 0 → (m.action_page_up).1.link = 0)
        ∧ (Menu.link_visibility { m with scroll := m.scroll - 15 } m.link
             ≠ some LinkDir.below →
           (m.action_page_up).1.link = m.link)
        ∧ ∀ pos,
            Menu.link_visibility { m with scroll := m.scroll - 15 } m.link
              = some LinkDir.below →
            ((m.links.take m.link).reverse).find?
                (fun i => decide (i < m.size.2 + (m.scroll - 15) - 2))
              = some pos →
            (m.action_page_up).1.link = (m.lines.getD pos default).link) := by
  refine ⟨?_, ?_, ?_, ?_, ?_, ?_, ?_, ?_⟩
  · by_cases hc : 15 < m.lines.length ∧ m.scroll < m.lines.length - 15
    · rw [action_page_down_pos m hc, if_pos hc]
      rcases hv : ({ m with scroll := m.scroll + 15 } : Menu).link_visibility m.link
        with _ | dir
      · rfl
      · cases dir
        · cases hf : (m.links.drop m.link).find? (fun i => decide (m.scroll + 15 ≤ i)) <;>
            rfl
        · rfl
        · rfl
    · rw [action_page_down_neg m hc, if_neg hc]
  · by_cases hc : 15 < m.lines.length ∧ m.scroll < m.lines.length - 15
    · rw [action_page_down_pos m hc, if_pos hc]
    · rw [action_page_down_neg m hc, if_neg hc]
  · by_cases hs : 0 < m.scroll
    · rw [action_page_up_pos m hs]
      by_cases hl : m.link = 0
      · rw [if_pos hl]
      · rw [if_neg hl]
        rcases hv : ({ m with scroll := m.scroll - 15 } : Menu).link_visibility m.link
          with _ | dir
        · rfl
        · cases dir
          · rfl
          · cases hf : ((m.links.take m.link).reverse).find?
                (fun i => decide (i < m.size.2 + (m.scroll - 15) - 2)) <;> rfl
          · rfl
    · rw [action_page_up_zero m hs]
      split <;> dsimp only <;> omega
  · by_cases hs : 0 < m.scroll
    · rw [action_page_up_pos m hs, if_pos (Or.inl hs)]
      split <;> rfl
    · rw [action_page_up_zero m hs]
      by_cases hl : 0 < m.link
      · rw [if_pos hl, if_pos (Or.inr hl)]
      · rw [if_neg hl, if_neg (by omega)]
  · intro hc
    rw [action_page_down_neg m hc]
  · intro hc
    constructor
    · intro hvne
      rw [action_page_down_pos m hc]
      rcases hv : ({ m with scroll := m.scroll + 15 } : Menu).link_visibility m.link
        with _ | dir
      · rfl
      · cases dir
        · exact absurd hv hvne
        · rfl
        · rfl
    · intro pos hv hf
      rw [action_page_down_pos m hc, hv]
      dsimp only
      rw [hf]
  · intro h0
    rw [action_page_up_zero m (by omega)]
    split
    · rfl
    · dsimp only
      omega
  · intro hs
    refine ⟨?_, ?_, ?_⟩
    · intro hl
      rw [action_page_up_pos m hs, if_pos hl]
      exact hl
    · intro hvne
      rw [action_page_up_pos m hs]
      by_cases hl : m.link = 0
      · rw [if_pos hl]
      · rw [if_neg hl]
        rcases hv : ({ m with scroll := m.scroll - 15 } : Menu).link_visibility m.link
          with _ | dir
        · rfl
        · cases dir
          · rfl
          · exact absurd hv hvne
          · rfl
    · intro pos hv hf
      by_cases hl : m.link = 0
      · rw [hl] at hf
        simp at hf
      · rw [action_page_up_pos m hs, if_neg hl, hv]
        dsimp only
        rw [hf]

/-- Counterexample to claim C5 as stated: on 20 lines with scroll 4, Page Down
yields scroll 19, outside the claimed clamp range `[0, len(lines) - 15]`; and
on `menuPU` Page Up's reselection leaves the selection on a link whose line is
still below the visible window, not on the nearest visible link. -/
theorem c5_paging_counterexample :
    ((menu20.action_page_down).1.scroll = 19
     ∧ menu20.lines.length = 20
     ∧ ¬ (menu20.action_page_down).1.scroll ≤ menu20.lines.length - 15)
    ∧ ((menuPU.action_page_up).1.scroll = 0
       ∧ (menuPU.action_page_up).1.link = 1
       ∧ (menuPU.action_page_up).1.scroll + menuPU.size.2 - 1
           ≤ menuPU.links.getD (menuPU.action_page_up).1.link 0) := by
  decide

/-- Witness for C5 (amended) at concrete menus: Page Down on `menuPD` scrolls
0 → 15 and reselects link 15; Page Up on `menuPU` runs the below-window
reselection and lands on link 1. -/
theorem c5_paging_amended_witness :
    (menuPD.action_page_down).1.scroll = 15
    ∧ (menuPD.action_page_down).1.link = 15
    ∧ (menuPU.action_page_up).1.link = 1 := by
  have h := c5_paging_amended menuPD
  have h2 := c5_paging_amended menuPU
  refine ⟨?_, ?_, ?_⟩
  · exact (h.1).trans (by decide)
  · exact ((h.2.2.2.2.2.1 (by decide)).2 15 (by decide) (by decide)).trans (by decide)
  · exact ((h2.2.2.2.2.2.2.2 (by decide)).2.2 7 (by decide) (by decide)).trans (by decide)

/-- `parseStep` appends exactly one line for a kept line and none otherwise. -/
theorem parseStep_lines_length (st : ParseState) (l : Str) :
    (parseStep st l).lines.length
      = st.lines.length + (if keepLine l then 1 else 0) := by
  unfold parseStep keepLine
  cases hh : l.head? with
  | none => simp
  | some c =>
    cases ht : type_for_char c with
    | none => simp [ht]
    | some typ => simp [ht]

/-- Folding `parseStep` adds one retained line per kept input line. -/
theorem foldl_parseStep_length (ls : List Str) (st : ParseState) :
    ((ls.foldl parseStep st).lines).length
      = st.lines.length + (ls.filter keepLine).length := by
  induction ls generalizing st with
  | nil => simp
  | cons h t ih =>
    rw [List.foldl_cons, ih, parseStep_lines_length]
    by_cases hk : keepLine h <;> simp [hk, List.filter_cons] <;> omega

/-- Claim C8: `parse` never fails — every input produces a Menu whose retained
lines are exactly the non-empty lines with a recognized item-type code; a line
with an unrecognized first character is skipped entirely, and a line with
fewer than 4 tab-separated fields still produces an entry. -/
theorem c8_parse_total_skip (url raw : Str) :
    (Menu.parse url raw).lines.length
      = ((splitTerm '\n' raw).filter keepLine).length
    ∧ (Menu.parse "t".toList "1OnlyName".toList).lines.length = 1
    ∧ keepLine "x-unrecognized".toList = false
    ∧ (Menu.parse "t".toList "x-bad\n1ok\n".toList).lines.length = 1 := by
  refine ⟨?_, by decide, by decide, by decide⟩
  unfold Menu.parse
  dsimp only
  rw [foldl_parseStep_length]
  simp

/-- Appending to a list puts the new element at index `length`. -/
theorem getD_append_length (ls : List Line) (x : Line) :
    (ls ++ [x]).getD ls.length default = x := by
  rw [List.getD_eq_getD_get?, List.get?_concat_length]
  rfl

/-- Appending to a list does not change the entries at indices below `length`. -/
theorem filter_range_append (ls : List Line) (x : Line) :
    (List.range ls.length).filter
        (fun i => nonInfo ((ls ++ [x]).getD i default))
      = (List.range ls.length).filter (fun i => nonInfo (ls.getD i default)) := by
  apply List.filter_congr
  intro i hi
  rw [List.getD_append _ _ _ _ (List.mem_range.mp hi)]

/-- The index range of a one-longer list, split at the old length. -/
theorem range_len_succ (ls : List Line) (x : Line) :
    List.range (ls ++ [x]).length = List.range ls.length ++ [ls.length] := by
  rw [List.length_append, List.length_singleton]
  exact List.range_succ ls.length

/-- `PSInv` is preserved by appending an Info line (link 0, no link index). -/
theorem psInv_push_info (st : ParseState) (h : PSInv st) (L : Line)
    (hT : L.typ = ItemType.info) (hL : L.link = 0) (lg : Nat) :
    PSInv { lines := st.lines ++ [L], links := st.links, link := st.link,
            longest := lg } := by
  obtain ⟨h1, h2, h3, h4⟩ := h
  have hni : nonInfo L = false := by
    simp [nonInfo, hT]
  have hfilter : (st.lines ++ [L]).filter nonInfo = st.lines.filter nonInfo := by
    rw [List.filter_append]
    simp [hni]
  refine ⟨?_, ?_, ?_, ?_⟩
  · show ((st.lines ++ [L]).filter nonInfo).map Line.link
      = List.range' 1 ((st.lines ++ [L]).filter nonInfo).length
    rw [hfilter]
    exact h1
  · show st.link = ((st.lines ++ [L]).filter nonInfo).length
    rw [hfilter]
    exact h2
  · show st.links = (List.range (st.lines ++ [L]).length).filter
      (fun i => nonInfo ((st.lines ++ [L]).getD i default))
    rw [range_len_succ, List.filter_append, filter_range_append]
    have hlast : [st.lines.length].filter
        (fun i => nonInfo ((st.lines ++ [L]).getD i default)) = [] := by
      simp [List.filter, getD_append_length, hni]
    rw [hlast, List.append_nil]
    exact h3
  · show ((st.lines ++ [L]).all fun l => decide (l.typ = ItemType.info → l.link = 0)) = true
    rw [List.all_append, h4]
    have hone : ([L].all fun l => decide (l.typ = ItemType.info → l.link = 0)) = true := by
      simp [hL]
    rw [hone]
    rfl

/-- `PSInv` is preserved by appending a link-bearing line numbered
`st.link + 1` whose index is recorded in `links`. -/
theorem psInv_push_link (st : ParseState) (h : PSInv st) (L : Line)
    (hT : L.typ ≠ ItemType.info) (hL : L.link = st.link + 1) (lg : Nat) :
    PSInv { lines := st.lines ++ [L], links := st.links ++ [st.lines.length],
            link := st.link + 1, longest := lg } := by
  obtain ⟨h1, h2, h3, h4⟩ := h
  have hni : nonInfo L = true := by
    simp [nonInfo, hT]
  have hfilter : (st.lines ++ [L]).filter nonInfo = st.lines.filter nonInfo ++ [L] := by
    rw [List.filter_append]
    simp [hni]
  refine ⟨?_, ?_, ?_, ?_⟩
  · show ((st.lines ++ [L]).filter nonInfo).map Line.link
      = List.range' 1 ((st.lines ++ [L]).filter nonInfo).length
    rw [hfilter, List.map_append, h1, List.length_append, List.length_singleton]
    have hr : List.range' 1 ((st.lines.filter nonInfo).length + 1)
        = List.range' 1 (st.lines.filter nonInfo).length
          ++ [1 + 1 * (st.lines.filter nonInfo).length] := List.range'_concat 1 _
    have hlk : L.link = 1 + 1 * (st.lines.filter nonInfo).length := by omega
    rw [hr, List.map_singleton, hlk]
  · show st.link + 1 = ((st.lines ++ [L]).filter nonInfo).length
    rw [hfilter, List.length_append, List.length_singleton, h2]
  · show st.links ++ [st.lines.length] = (List.range (st.lines ++ [L]).length).filter
      (fun i => nonInfo ((st.lines ++ [L]).getD i default))
    rw [range_len_succ, List.filter_append, filter_range_append]
    have hlast : [st.lines.length].filter
        (fun i => nonInfo ((st.lines ++ [L]).getD i default)) = [st.lines.length] := by
      simp [List.filter, getD_append_length, hni]
    rw [hlast, h3]
  · show ((st.lines ++ [L]).all fun l => decide (l.typ = ItemType.info → l.link = 0)) = true
    rw [List.all_append, h4]
    have hone : ([L].all fun l => decide (l.typ = ItemType.info → l.link = 0)) = true := by
      simp [hT]
    rw [hone]
    rfl

/-- `parseStep` preserves the numbering invariant. -/
theorem psInv_parseStep (st : ParseState) (l : Str) (h : PSInv st) :
    PSInv (parseStep st l) := by
  unfold parseStep
  cases hh : l.head? with
  | none => exact h
  | some c =>
    dsimp only
    cases ht : type_for_char c with
    | none => exact h
    | some typ =>
      dsimp only
      by_cases hinfo : typ = ItemType.info
      · rw [if_neg (not_not_intro hinfo), if_pos hinfo]
        rw [if_neg (by omega : ¬ 0 < 0)]
        exact psInv_push_info st h _ hinfo rfl _
      · rw [if_pos hinfo, if_neg hinfo]
        rw [if_pos (Nat.succ_pos st.link)]
        exact psInv_push_link st h _ hinfo rfl _

/-- Folding `parseStep` preserves the numbering invariant. -/
theorem psInv_foldl (ls : List Str) (st : ParseState) (h : PSInv st) :
    PSInv (ls.foldl parseStep st) := by
  induction ls generalizing st with
  | nil => exact h
  | cons hd t ih => exact ih _ (psInv_parseStep st hd h)

/-- Claim C4: in every parsed menu, the link numbers of the retained lines, in
line order and skipping Info lines, are exactly 1, 2, 3, …; `links` lists, in
increasing order, exactly the indices of the non-Info retained lines (so no
Info line's index appears in it); and every Info line carries link number 0. -/
theorem c4_link_numbering (url raw : Str) :
    (((Menu.parse url raw).lines.filter nonInfo).map Line.link
       = List.range' 1 (((Menu.parse url raw).lines.filter nonInfo).length))
    ∧ ((Menu.parse url raw).links
       = (List.range (Menu.parse url raw).lines.length).filter
           (fun i => nonInfo ((Menu.parse url raw).lines.getD i default)))
    ∧ ((Menu.parse url raw).lines.all
        (fun l => decide (l.typ = ItemType.info → l.link = 0)) = true) := by
  have h : PSInv ((splitTerm '\n' raw).foldl parseStep
      { lines := [], links := [], link := 0, longest := 0 }) := by
    apply psInv_foldl
    exact ⟨rfl, rfl, rfl, rfl⟩
  exact ⟨h.1, h.2.2.1, h.2.2.2⟩

/-- A decimal digit is none of the specially handled characters. -/
theorem isDigit_ne_keys {c : Char} (h : c.isDigit = true) :
    c ≠ '\n' ∧ c ≠ '-' ∧ c ≠ ' ' ∧ c ≠ '+' := by
  refine ⟨?_, ?_, ?_, ?_⟩ <;> rintro rfl <;> exact absurd h (by decide)

/-- `parseUsize` on a single digit yields that digit's value. -/
theorem parseUsize_singleton {c : Char} {n : Nat} (hc : c.isDigit = true)
    (hn : parseUsize [c] = some n) : n = c.toNat - 48 := by
  have hplus : c ≠ '+' := (isDigit_ne_keys hc).2.2.2
  unfold parseUsize at hn
  dsimp only at hn
  rw [if_neg hplus] at hn
  rw [if_neg (show ¬([c] : Str) = [] by simp)] at hn
  rw [if_pos (show ([c].all Char.isDigit) = true by simp [hc])] at hn
  split at hn
  · cases hn
    simp only [List.foldl_cons, List.foldl_nil]
    omega
  · cases hn

/-- With in-range index and links pointing into `lines`, `linkLine` succeeds. -/
theorem linkLine_of_lt (m : Menu) {i : Nat} (hi : i < m.links.length)
    (hwf : ∀ p ∈ m.links, p < m.lines.length) :
    ∃ ln, m.linkLine i = some ln := by
  unfold Menu.linkLine
  rw [get?_eq_some_getD m.links hi]
  have hp : m.links.getD i 0 ∈ m.links :=
    List.get?_mem (get?_eq_some_getD m.links hi)
  have hlt := hwf _ hp
  exact ⟨m.lines.get ⟨m.links.getD i 0, hlt⟩, by
    dsimp only
    rw [List.get?_eq_get hlt]⟩

/-- `action_open` on a selected non-Search link clears the input and opens the
link's URL. -/
theorem action_open_spec (m : Menu) (pr : Option Str) {ln : Line}
    (hline : m.linkLine m.link = some ln)
    (hns : parseUrlType ln.url ≠ ItemType.search) :
    m.action_open pr = ({ m with input := [] }, Action.openUrl ln.url) := by
  unfold Menu.action_open
  dsimp only
  have hline2 : ({ m with input := ([] : Str) } : Menu).linkLine m.link = some ln := hline
  rw [hline2]
  dsimp only
  rw [if_neg hns]

/-- `action_open` on a selected Search-typed link prompts: with a query it
opens `url?query`, with a cancelled prompt it returns `None`; the input buffer
is cleared either way. -/
theorem action_open_spec_search (m : Menu) (pr : Option Str) {ln : Line}
    (hline : m.linkLine m.link = some ln)
    (hs : parseUrlType ln.url = ItemType.search) :
    m.action_open pr =
      match pr with
      | some q => ({ m with input := [] }, Action.openUrl (ln.url ++ ['?'] ++ q))
      | none => ({ m with input := [] }, Action.none) := by
  unfold Menu.action_open
  dsimp only
  have hline2 : ({ m with input := ([] : Str) } : Menu).linkLine m.link = some ln := hline
  rw [hline2]
  dsimp only
  rw [if_pos hs]

/-- `parseUsize` only returns `usize`-representable values. -/
theorem parseUsize_lt {s : Str} {n : Nat} (hn : parseUsize s = some n) :
    n < 2 ^ 64 := by
  unfold parseUsize at hn
  dsimp only at hn
  split at hn
  · cases hn
  · split at hn
    · split at hn
      · cases hn
        assumption
      · cases hn
    · cases hn

/-- The wrapping decrement agrees with the exact one on `1 ≤ n < 2^64`. -/
theorem usizeSub1_eq {n : Nat} (h1 : 1 ≤ n) (h2 : n < 2 ^ 64) :
    usizeSub1 n = n - 1 := by
  unfold usizeSub1
  omega

/-- Full behavior of `action_follow_link` on an in-range link: it clears the
input buffer and opens the link's URL, except that a Search-typed link prompts
— opening `url?query` on a supplied query and doing nothing on a cancelled
prompt. -/
theorem follow_spec (m : Menu) (pr : Option Str) (i : Nat)
    (hi : i < m.links.length)
    (hwf : ∀ p ∈ m.links, p < m.lines.length) :
    ∃ ln, m.linkLine i = some ln
      ∧ (parseUrlType ln.url ≠ ItemType.search →
          (m.action_follow_link pr i).2 = Action.openUrl ln.url
          ∧ (m.action_follow_link pr i).1.input = [])
      ∧ (parseUrlType ln.url = ItemType.search →
          (∀ q, pr = some q →
            (m.action_follow_link pr i).2 = Action.openUrl (ln.url ++ ['?'] ++ q)
            ∧ (m.action_follow_link pr i).1.input = [])
          ∧ (pr = none →
            (m.action_follow_link pr i).2 = Action.none
            ∧ (m.action_follow_link pr i).1.input = [])) := by
  obtain ⟨ln, hline⟩ := linkLine_of_lt m hi hwf
  have hsel := action_select_link_eq ({ m with input := ([] : Str) } : Menu) i
  rw [if_pos hi] at hsel
  refine ⟨ln, hline, ?_, ?_⟩
  · intro hns
    unfold Menu.action_follow_link
    dsimp only
    rw [hsel]
    dsimp only
    rw [action_open_spec _ pr hline hns]
    exact ⟨rfl, rfl⟩
  · intro hs
    constructor
    · intro q hq
      subst hq
      unfold Menu.action_follow_link
      dsimp only
      rw [hsel]
      dsimp only
      rw [action_open_spec_search _ _ hline hs]
      exact ⟨rfl, rfl⟩
    · intro hq
      subst hq
      unfold Menu.action_follow_link
      dsimp only
      rw [hsel]
      dsimp only
      rw [action_open_spec_search _ _ hline hs]
      exact ⟨rfl, rfl⟩

/-- Counterexample to claim C1 as stated: on a single-link menu whose link is
Search-typed, typing '1' satisfies the claim's premises (n = 1 is a valid link
number and the count 1 is below 1 * 10), yet `process_key` does not return
`Action::Open` of the link's URL — with a cancelled prompt it returns
`Action::None`, and with the query "a" it returns `Open` of `url?a`, not of
the URL itself (menu.rs lines 362-371). -/
theorem c1_numeric_jump_counterexample :
    1 ≤ menuSearch.links.length
    ∧ menuSearch.links.length < 1 * 10
    ∧ (menuSearch.lines.getD 0 default).url = "gopher://h/7/q".toList
    ∧ (menuSearch.process_key none (Key.char '1')).2 = Action.none
    ∧ (menuSearch.process_key (some ['a']) (Key.char '1')).2
        = Action.openUrl "gopher://h/7/q?a".toList := by
  decide

/-- Claim C1 (amended): typing a digit that completes a 1-, 2- or 3-character
all-digit buffer denoting a valid link number `n` follows link `n` immediately
exactly when the link count is below `n * 10`: the input buffer is cleared
and, unless the link is Search-typed, `Action::Open` of its URL is returned —
a Search-typed link instead solicits a query, returning `Open` of
`url?query`, or `None` when the prompt is cancelled. Otherwise, when the count
is at least `n * 10`, it only selects link `n - 1`, returns Redraw, and keeps
the typed buffer awaiting further digits. -/
theorem c1_numeric_jump_amended (m : Menu) (pr : Option Str) (c : Char) (n : Nat)
    (hwf : ∀ p ∈ m.links, p < m.lines.length)
    (hdig : (m.input ++ [c]).all Char.isDigit = true)
    (hlen : (m.input ++ [c]).length ≤ 3)
    (hn : parseUsize (m.input ++ [c]) = some n)
    (hone : 1 ≤ n) (hcount : n ≤ m.links.length) :
    (m.links.length < n * 10 →
      ∃ ln, m.linkLine (n - 1) = some ln
        ∧ (parseUrlType ln.url ≠ ItemType.search →
            (m.process_key pr (Key.char c)).2 = Action.openUrl ln.url
            ∧ (m.process_key pr (Key.char c)).1.input = [])
        ∧ (parseUrlType ln.url = ItemType.search →
            (∀ q, pr = some q →
              (m.process_key pr (Key.char c)).2 = Action.openUrl (ln.url ++ ['?'] ++ q)
              ∧ (m.process_key pr (Key.char c)).1.input = [])
            ∧ (pr = none →
              (m.process_key pr (Key.char c)).2 = Action.none
              ∧ (m.process_key pr (Key.char c)).1.input = [])))
    ∧ (¬ m.links.length < n * 10 →
      (m.process_key pr (Key.char c)).1.link = n - 1
      ∧ (m.process_key pr (Key.char c)).2 = Action.redraw
      ∧ (m.process_key pr (Key.char c)).1.input = m.input ++ [c]) := by
  have hc : c.isDigit = true := by
    simp only [List.all_append, List.all_cons, List.all_nil, Bool.and_eq_true,
      Bool.and_true] at hdig
    exact hdig.2
  obtain ⟨hne1, hne2, hne3, hne4⟩ := isDigit_ne_keys hc
  have hpk : m.process_key pr (Key.char c) = m.charKey pr c := by
    unfold Menu.process_key
    dsimp only
    rw [if_neg hne1, if_neg hne2, if_neg hne3]
  rw [hpk]
  have hni : n - 1 < m.links.length := by omega
  have hlt64 : n < 2 ^ 64 := parseUsize_lt hn
  have husub : usizeSub1 n = n - 1 := usizeSub1_eq hone hlt64
  have h3 : m.input.length = 0 ∨ m.input.length = 1 ∨ m.input.length = 2 := by
    have hl : (m.input ++ [c]).length = m.input.length + 1 := by simp
    omega
  unfold Menu.charKey
  dsimp only
  rcases h3 with h0 | h1 | h2
  · -- first digit typed
    have hinput : m.input = [] := List.length_eq_zero.mp h0
    rw [hinput] at hn ⊢
    simp only [List.nil_append] at hn ⊢
    rw [if_pos (show ([c] : Str).length = 1 from rfl)]
    simp only [List.head?]
    rw [if_pos hc]
    have hid : c.toNat - '0'.toNat = n := by
      have hps := parseUsize_singleton hc hn
      have h48 : '0'.toNat = 48 := rfl
      omega
    rw [hid, husub, if_pos hcount]
    constructor
    · intro hflt
      rw [if_pos hflt]
      dsimp only
      obtain ⟨ln, ha, hb, hc2⟩ :=
        follow_spec ({ m with input := ([c] : Str) } : Menu) pr (n - 1) hni hwf
      exact ⟨ln, ha, hb, hc2⟩
    · intro hflt
      rw [if_neg hflt]
      dsimp only
      rw [action_select_link_eq, if_pos hni]
      exact ⟨rfl, rfl, rfl⟩
  · -- second digit typed
    obtain ⟨d, hd⟩ := List.length_eq_one.mp h1
    rw [hd] at hn ⊢
    simp only [List.cons_append, List.nil_append] at hn ⊢
    rw [if_neg (show ¬ ([d, c] : Str).length = 1 by simp)]
    rw [if_pos (show ([d, c] : Str).length = 2 from rfl)]
    rw [show (([d, c] : Str).take 2) = [d, c] from rfl, hn]
    dsimp only
    rw [husub, if_pos hcount]
    constructor
    · intro hflt
      rw [if_pos hflt]
      dsimp only
      obtain ⟨ln, ha, hb, hc2⟩ :=
        follow_spec ({ m with input := ([d, c] : Str) } : Menu) pr (n - 1) hni hwf
      exact ⟨ln, ha, hb, hc2⟩
    · intro hflt
      rw [if_neg hflt]
      dsimp only
      rw [action_select_link_eq, if_pos hni]
      exact ⟨rfl, rfl, rfl⟩
  · -- third digit typed
    obtain ⟨d, e, hd⟩ := List.length_eq_two.mp h2
    rw [hd] at hn ⊢
    simp only [List.cons_append, List.nil_append] at hn ⊢
    rw [if_neg (show ¬ ([d, e, c] : Str).length = 1 by simp)]
    rw [if_neg (show ¬ ([d, e, c] : Str).length = 2 by simp)]
    rw [if_pos (show ([d, e, c] : Str).length = 3 from rfl)]
    rw [show (([d, e, c] : Str).take 3) = [d, e, c] from rfl, hn]
    dsimp only
    rw [husub, if_pos hcount]
    constructor
    · intro hflt
      rw [if_pos hflt]
      dsimp only
      obtain ⟨ln, ha, hb, hc2⟩ :=
        follow_spec ({ m with input := ([d, e, c] : Str) } : Menu) pr (n - 1) hni hwf
      exact ⟨ln, ha, hb, hc2⟩
    · intro hflt
      rw [if_neg hflt]
      dsimp only
      rw [action_select_link_eq, if_pos hni]
      exact ⟨rfl, rfl, rfl⟩

/-- Witness for C1 (amended) at concrete menus: on a 9-link menu typing '5'
follows link 5 (9 < 50), opening its URL with the buffer cleared; on a 15-link
menu typing '1' only selects link 0 and keeps the buffer (¬ 15 < 10); on the
single-Search-link menu typing '1' with query "a" opens `url?a`. -/
theorem c1_numeric_jump_amended_witness :
    ((menu9.process_key none (Key.char '5')).2 = Action.openUrl (textLink 4).url
     ∧ (menu9.process_key none (Key.char '5')).1.input = [])
    ∧ ((menu15.process_key none (Key.char '1')).1.link = 1 - 1
       ∧ (menu15.process_key none (Key.char '1')).2 = Action.redraw
       ∧ (menu15.process_key none (Key.char '1')).1.input = menu15.input ++ ['1'])
    ∧ (menuSearch.process_key (some ['a']) (Key.char '1')).2
        = Action.openUrl (searchLine.url ++ ['?'] ++ ['a']) := by
  refine ⟨?_, ?_, ?_⟩
  · obtain ⟨ln, ha, hno, hsr⟩ :=
      (c1_numeric_jump_amended menu9 none '5' 5 (by decide) (by decide) (by decide)
        (by decide) (by decide) (by decide)).1 (by decide)
    have he : menu9.linkLine (5 - 1) = some (textLink 4) := by decide
    rw [he] at ha
    have hln : ln = textLink 4 := (Option.some.inj ha).symm
    subst hln
    exact hno (by decide)
  · exact (c1_numeric_jump_amended menu15 none '1' 1 (by decide) (by decide) (by decide)
      (by decide) (by decide) (by decide)).2 (by decide)
  · obtain ⟨ln, ha, hno, hsr⟩ :=
      (c1_numeric_jump_amended menuSearch (some ['a']) '1' 1 (by decide) (by decide)
        (by decide) (by decide) (by decide) (by decide)).1 (by decide)
    have he : menuSearch.linkLine (1 - 1) = some searchLine := by decide
    rw [he] at ha
    have hln : ln = searchLine := (Option.some.inj ha).symm
    subst hln
    exact ((hsr (by decide)).1 ['a'] rfl).1

end Phetch
